import Mathlib

/-!
Shallow embedding of the babalang interpreter (Rust sources under `src/`)
and proofs about the behaviour of its operations.

Conventions of the embedding:
* `usize`/`u8` machine integers become `Nat`; `u8` wrapping arithmetic is
  explicit `% 256`, and `usize` subtraction that would panic on underflow in
  a debug build is modelled by `checkedSub`, returning `none` on underflow.
* `HashMap<usize, Object>` becomes an association list `Store` keyed by `Nat`
  (`lookupStore` = `get`, `setStore` = `insert`/`get_mut` write,
  `removeStore` = `remove`).  Iteration order of a `HashMap` is unspecified in
  Rust; here it is the list order.
* `Object.reference_count` is written but never read in the source
  (`grep reference_count src`), so objects are modelled by their `obj_type`
  payload alone.  `Level.callback` and the attribute maps of `Image` /
  `ImageInstance` are carried by no operation modelled below and are elided.
* Process exits (`exit(0)` / `exit(1)` and the always-fatal `throw_error`)
  become explicit outcome values (`StepOut`, or `none` of an `Option`).
* `stdin` is an explicit byte list.
-/

/-! ## Tokens (src/token.rs) -/

/-- `Noun` from src/token.rs. -/
inductive Noun : Type where
  | all : Noun
  | empty : Noun
  | level : Noun
  | image : Noun
  | identifier (id : Nat) : Noun
deriving DecidableEq

/-- `Verb` from src/token.rs. -/
inductive Verb : Type where
  | eat | fear | follow | has | is | make | mimic | play
deriving DecidableEq

/-- `Property` from src/token.rs (named `PropKw` because `Prop` is taken in Lean). -/
inductive PropKw : Type where
  | you | you2 | group | tele
  | float
  | done
  | text | word
  | win | defeat | sleep
  | move | turn | fall | more | up | down | left | right
  | shift | sink | swap
  | power
deriving DecidableEq

/-- `Prefix` from src/token.rs (renamed: the source's name is a Lean keyword). -/
inductive PrefixKw : Type where
  | idle | lonely
deriving DecidableEq

/-- `Conditional` from src/token.rs. -/
inductive Conditional : Type where
  | on | near | facing | without
deriving DecidableEq

/-- `Token` from src/token.rs.  `And`/`Not` are renamed `andTok`/`notTok`
to avoid clashing with the Lean connectives. -/
inductive Token : Type where
  | noun (n : Noun) : Token
  | verb (v : Verb) : Token
  | property (p : PropKw) : Token
  | pfx (p : PrefixKw) : Token
  | notTok : Token
  | andTok : Token
  | conditional (c : Conditional) : Token
deriving DecidableEq

/-! ## Objects (src/object.rs) -/

/-- `You` from src/object.rs: two `u8` coordinates and a direction
(only the lowest 2 bits of `dir` are used). -/
structure YouV : Type where
  x : Nat
  y : Nat
  dir : Nat
deriving DecidableEq

/-- The object payload (`Type` in src/object.rs).  Fields never read by the
operations modelled here (`reference_count`, `Level.callback`, the attribute
maps and attribute pointers of `Image`/`ImageInstance`) are elided; `Image`
keeps its constructor's `arguments`/`parameters`, which the `IDLE` prefix and
`Power` inspect. -/
inductive Obj : Type where
  | empty : Obj
  | reference (pointer : Nat) : Obj
  | you (v : YouV) : Obj
  | group (index : Nat) (data : List Obj) : Obj
  | level (identifier : Nat) (arguments : List Nat) (parameters : List Obj) : Obj
  | image (identifier : Nat) (ctorArguments : List Nat) (ctorParameters : List Obj) : Obj
  | imageInstance (classId : Nat) : Obj

/-- `impl PartialEq for You` (src/object.rs lines 42-46): equality of `You`
objects compares `x` and `y` only, ignoring `dir`. -/
def youEq (a b : YouV) : Bool :=
  a.x == b.x && a.y == b.y

/-- Discriminator for the `You` variant. -/
def isYou : Obj → Bool
  | .you _ => true
  | _ => false

/-! ## u8 / usize arithmetic helpers -/

/-- `u8::wrapping_add` on byte values. -/
def wadd8 (a b : Nat) : Nat := (a + b) % 256

/-- `u8::wrapping_sub` on byte values (operands are `u8` contents, `< 256`). -/
def wsub8 (a b : Nat) : Nat := (a + 256 - b) % 256

/-- `usize` subtraction as checked by a debug build: `none` models the
"attempt to subtract with overflow" panic. -/
def checkedSub (a b : Nat) : Option Nat :=
  if b ≤ a then some (a - b) else none

/-! ## The two object stores (locals / globals) -/

/-- A `HashMap<usize, Object>` modelled as an association list. -/
abbrev Store := List (Nat × Obj)

/-- `HashMap::get`. -/
def lookupStore : Store → Nat → Option Obj
  | [], _ => none
  | (k, v) :: rest, id => if k = id then some v else lookupStore rest id

/-- `HashMap::insert` (also the write through `get_mut`): replaces the binding
if the key is present, otherwise appends it. -/
def setStore : Store → Nat → Obj → Store
  | [], id, v => [(id, v)]
  | (k, w) :: rest, id, v =>
    if k = id then (k, v) :: rest else (k, w) :: setStore rest id v

/-- `HashMap::remove`. -/
def removeStore : Store → Nat → Store
  | [], _ => []
  | (k, w) :: rest, id => if k = id then rest else (k, w) :: removeStore rest id

/-- `HashMap::contains_key`. -/
def containsKey (s : Store) (id : Nat) : Bool :=
  (lookupStore s id).isSome

/-- `initialize` (renamed `initObject`) (src/interpreter.rs lines 571-594): place an object in the
locals or the globals, with the `float` promotion rule. -/
def initObject (id : Nat) (obj : Obj) (float : Bool) (locals globals : Store) :
    Store × Store :=
  let extraFloat := if float then true else containsKey globals id
  let locals' := if float && containsKey locals id then removeStore locals id else locals
  if extraFloat then (locals', setStore globals id obj)
  else (setStore locals' id obj, globals)

/-- `find_value` / `find_ref` resolution (src/interpreter.rs lines 1464-1531):
look the id up in locals first, then globals, chasing `Reference` objects from
the top.  `fuel` bounds the chase (the source recurses unboundedly and would
overflow the stack on a reference cycle); `none` also covers the
`ObjectNotDefinedError` that `throw_error` turns into a process exit. -/
def findValue (fuel : Nat) (id : Nat) (locals globals : Store) : Option Obj :=
  match fuel with
  | 0 => none
  | fuel + 1 =>
    match lookupStore locals id with
    | some obj =>
      match obj with
      | .reference p => findValue fuel p locals globals
      | _ => some obj
    | none =>
      match lookupStore globals id with
      | some obj =>
        match obj with
        | .reference p => findValue fuel p locals globals
        | _ => some obj
      | none => none

/-- The target location `(isGlobal, finalId)` computed by `find_mut_ref`
(src/interpreter.rs lines 1536-1583). -/
def findMutLoc (fuel : Nat) (id : Nat) (locals globals : Store) :
    Option (Bool × Nat) :=
  match fuel with
  | 0 => none
  | fuel + 1 =>
    match lookupStore locals id with
    | some obj =>
      match obj with
      | .reference p => findMutLoc fuel p locals globals
      | _ => some (false, id)
    | none =>
      match lookupStore globals id with
      | some obj =>
        match obj with
        | .reference p => findMutLoc fuel p locals globals
        | _ => some (true, id)
      | none => none

/-! ## Startup state (src/interpreter.rs `exec`, lines 14-25) -/

/-- The `LEVEL` constant of src/object.rs (lines 148-156): identifier 1,
no arguments, no parameters. -/
def levelSentinel : Obj := Obj.level 1 [] []

/-- The globals map as populated by `exec` before the first instruction runs
(src/interpreter.rs lines 16-19): `EMPTY` under id 0 and `LEVEL` under id 1.
No insertion is performed for reserved id 2. -/
def initGlobals : Store := [(0, Obj.empty), (1, levelSentinel)]

/-! ## The IDLE prefix (src/interpreter.rs lines 509-523)

In the source the check reads

```
if let Type::Level(level) = &source.obj_type { ... may clear complete ... }
if let Type::Image(img) = &source.obj_type { ... may clear complete ... }
else { complete = !pref.sign; }
```

the second `if let` is not chained to the first with `else`, so its `else`
branch runs for every non-`Image` subject — including `Level`, whose check on
the line above is then overwritten. -/

/-- The value of `complete` after the `Prefix::Idle` case, given the prefix
sign, the dereferenced subject, and the value of `complete` accumulated by the
conditional checks before it. -/
def idleComplete (sign : Bool) (source : Obj) (complete : Bool) : Bool :=
  let complete1 :=
    match source with
    | .level _ args params =>
      if !(Bool.xor (args.length == params.length) sign) then false else complete
    | _ => complete
  match source with
  | .image _ cargs cparams =>
    if !(Bool.xor (cargs.length - 1 == cparams.length) sign) then false
    else complete1
  | _ => !sign

/-! ## Simple operations from `exec_simple` (src/interpreter.rs) -/

/-- Outcome of a simple instruction: fall through, `exit(code)`, or a fatal
`throw_error` diagnostic (which also exits the process). -/
inductive StepOut : Type where
  | ok : StepOut
  | exitCode (code : Nat) : StepOut
  | errorStop : StepOut
deriving DecidableEq

/-- `Simple::Win` (src/interpreter.rs lines 673-679): dereference the id; a
`You` exits with code 0, any other defined object is skipped silently; an
unresolved id is the fatal lookup error.  The arm performs no writes, so the
stores are returned unchanged. -/
def execWin (fuel : Nat) (id : Nat) (locals globals : Store) :
    StepOut × Store × Store :=
  match findValue fuel id locals globals with
  | some obj => if isYou obj then (.exitCode 0, locals, globals) else (.ok, locals, globals)
  | none => (.errorStop, locals, globals)

/-- `Simple::Defeat` (src/interpreter.rs lines 680-686): as `Win` but exits
with code 1. -/
def execDefeat (fuel : Nat) (id : Nat) (locals globals : Store) :
    StepOut × Store × Store :=
  match findValue fuel id locals globals with
  | some obj => if isYou obj then (.exitCode 1, locals, globals) else (.ok, locals, globals)
  | none => (.errorStop, locals, globals)

/-- `Vec::append`: moves all elements of `other` into `self`, leaving `other`
empty.  Returns the pair (new `self`, new `other`). -/
def vecAppend (self other : List Obj) : List Obj × List Obj :=
  (self ++ other, [])

/-- The `Type::Group` arm of `Simple::Word` (src/interpreter.rs lines
642-662).  `buffer` is the byte content of the line returned by
`read_line`.  Mirrors the source statement by statement:

```
let mut objects = buffer.bytes()...map(You { x, y: 0, dir: 0 })...;
let mut new = group.data.to_vec();
new.append(&mut objects);          // drains `objects`
group.data = new;
group.index += objects.len();      // `objects` is empty here
```

Returns the new `(index, data)` of the group. -/
def wordOnGroup (index : Nat) (data : List Obj) (buffer : List Nat) :
    Nat × List Obj :=
  let objects := buffer.map (fun b => Obj.you ⟨b, 0, 0⟩)
  let r := vecAppend data objects
  let new := r.1
  let objects := r.2
  (index + objects.length, new)

/-- The `You`/`You` case of `Simple::IsValue` (src/interpreter.rs lines
704-721): with `not` set, both coordinates are assigned from the *negation of
`b.x`* (`y` is set from `x` of `b`); without `not`, `a` receives `b`'s
coordinates.  `dir` stays `a`'s. -/
def isValueYou (not : Bool) (a b : YouV) : YouV :=
  if not then ⟨255 - b.x, 255 - b.x, a.dir⟩
  else ⟨b.x, b.y, a.dir⟩

/-- `Simple::Move` on a `You` (src/interpreter.rs lines 894-986): advance the
active axis (x for dir 0/2, y for dir 1/3) by ±1 with explicit wrap-around at
the `u8` bounds; `dir ≥ 4` does nothing. -/
def moveYou (not : Bool) (u : YouV) : YouV :=
  match u.dir with
  | 0 =>
    if not then (if u.x = 0 then { u with x := 255 } else { u with x := u.x - 1 })
    else (if u.x = 255 then { u with x := 0 } else { u with x := u.x + 1 })
  | 1 =>
    if not then (if u.y = 0 then { u with y := 255 } else { u with y := u.y - 1 })
    else (if u.y = 255 then { u with y := 0 } else { u with y := u.y + 1 })
  | 2 =>
    if not then (if u.x = 255 then { u with x := 0 } else { u with x := u.x + 1 })
    else (if u.x = 0 then { u with x := 255 } else { u with x := u.x - 1 })
  | 3 =>
    if not then (if u.y = 255 then { u with y := 0 } else { u with y := u.y + 1 })
    else (if u.y = 0 then { u with y := 255 } else { u with y := u.y - 1 })
  | _ => u

/-- `Simple::Shift` on a `Group` (src/interpreter.rs lines 1174-1203):
rotate the cursor; returns the new index, `none` when the `usize` computation
`group.data.len() - 1` underflows (empty group). -/
def shiftGroup (not : Bool) (index : Nat) (data : List Obj) : Option Nat :=
  if not then
    if index = 0 then checkedSub data.length 1
    else some (index - 1)
  else
    match checkedSub data.length 1 with
    | some last => if index = last then some 0 else some (index + 1)
    | none => none

/-! ## `Simple::IsSum` (src/interpreter.rs lines 790-892) -/

/-- The running `(all_x, all_y)` sums of the `Noun::All` case (lines 826-850):
wrapping-add the coordinates of every `You` in the locals, then in the
globals. -/
def sumAllYous (locals globals : Store) : Nat × Nat :=
  let step : Nat × Nat → Nat × Obj → Nat × Nat := fun acc kv =>
    match kv.2 with
    | .you v => (wadd8 acc.1 v.x, wadd8 acc.2 v.y)
    | _ => acc
  globals.foldl step (locals.foldl step (0, 0))

/-- The target loop of `IsSum` (lines 791-869), threading `(sum_x, sum_y)`
through `targets.iter().zip(nots.iter())`.  An `Identifier` target resolving
to a `You` is added (flag clear) or subtracted (flag set); an `All` target
accumulates `sumAllYous` and then — sign inverted — subtracts it when the flag
is clear and adds it when set.  A target that is undefined, resolves to a
non-`You`, or is any other noun reaches `throw_error`, which kills the
process (`none`). -/
def isSumLoop (fuel : Nat) (locals globals : Store) :
    List (Noun × Bool) → Nat × Nat → Option (Nat × Nat)
  | [], acc => some acc
  | (t, n) :: rest, (sx, sy) =>
    match t with
    | .identifier id =>
      match findValue fuel id locals globals with
      | some (.you v) =>
        if n then isSumLoop fuel locals globals rest (wsub8 sx v.x, wsub8 sy v.y)
        else isSumLoop fuel locals globals rest (wadd8 sx v.x, wadd8 sy v.y)
      | some _ => none
      | none => none
    | .all =>
      let s := sumAllYous locals globals
      if n then isSumLoop fuel locals globals rest (wadd8 sx s.1, wadd8 sy s.2)
      else isSumLoop fuel locals globals rest (wsub8 sx s.1, wsub8 sy s.2)
    | _ => none

/-- The write-back of `IsSum` (lines 870-892): a `You` bound directly (no
dereference) in locals, else in globals, receives the sums (keeping its
`dir`); a non-`You` binding is silently left alone; an unbound id is created
via `initObject` with `float = false` and `dir = 0`. -/
def assignYou (sourceId sx sy : Nat) (locals globals : Store) : Store × Store :=
  match lookupStore locals sourceId with
  | some (.you v) => (setStore locals sourceId (.you ⟨sx, sy, v.dir⟩), globals)
  | some _ => (locals, globals)
  | none =>
    match lookupStore globals sourceId with
    | some (.you v) => (locals, setStore globals sourceId (.you ⟨sx, sy, v.dir⟩))
    | some _ => (locals, globals)
    | none => initObject sourceId (.you ⟨sx, sy, 0⟩) false locals globals

/-- `Simple::IsSum` in full: run the target loop from `(0, 0)`, then write the
result back; `none` is the fatal error path inside the loop. -/
def execIsSum (fuel sourceId : Nat) (targets : List Noun) (nots : List Bool)
    (locals globals : Store) : Option (Store × Store) :=
  match isSumLoop fuel locals globals (targets.zip nots) (0, 0) with
  | some s => some (assignYou sourceId s.1 s.2 locals globals)
  | none => none

/-- One target's contribution to the `IsSum` totals, as the specification
describes it: an `Identifier` resolving to a `You` adds its coordinates when
its flag is clear and subtracts them when set; `All` contributes the total of
every `You` in both scopes with the sign inverted relative to its flag.
Targets outside those cases leave the accumulator unchanged (the claim's
hypotheses exclude them). -/
def claimedStep (fuel : Nat) (locals globals : Store) (acc : Nat × Nat)
    (tn : Noun × Bool) : Nat × Nat :=
  match tn.1 with
  | .identifier id =>
    match findValue fuel id locals globals with
    | some (.you v) =>
      if tn.2 then (wsub8 acc.1 v.x, wsub8 acc.2 v.y)
      else (wadd8 acc.1 v.x, wadd8 acc.2 v.y)
    | _ => acc
  | .all =>
    let s := sumAllYous locals globals
    if tn.2 then (wadd8 acc.1 s.1, wadd8 acc.2 s.2)
    else (wsub8 acc.1 s.1, wsub8 acc.2 s.2)
  | _ => acc

/-- A target/flag pair the `IsSum` claim quantifies over: an `Identifier`
that resolves to a `You`, or `All`. -/
def goodTarget (fuel : Nat) (locals globals : Store) (tn : Noun × Bool) : Bool :=
  match tn.1 with
  | .identifier id =>
    match findValue fuel id locals globals with
    | some (.you _) => true
    | _ => false
  | .all => true
  | _ => false

/-! ## Statements and `append_statement` (src/statement.rs) -/

/-- `Target` from src/statement.rs. -/
inductive Target : Type where
  | noun (n : Noun) : Target
  | property (p : PropKw) : Target
deriving DecidableEq

/-- `Statement` from src/statement.rs (field `prefix`/`prefix_sign` renamed
`pfx`/`pfxSign`: `prefix` is a Lean keyword). -/
structure Stmt : Type where
  pfx : Option PrefixKw
  pfxSign : Option Bool
  subject : Noun
  condType : Option Conditional
  condSign : Option Bool
  condTargets : List Target
  actionType : Verb
  actionTargets : Option (List Noun)
  actionTarget : Option Target
  actionSigns : Option (List Bool)
  actionSign : Bool
deriving DecidableEq

/-- The guard of the first match arm in the `IS` loop (src/statement.rs line
48): a `Noun` target that is an `Identifier` or `All`. -/
def isNounIdentOrAll : Target → Bool
  | .noun (.identifier _) => true
  | .noun .all => true
  | _ => false

/-- `for target in slice { if let Target::Noun(noun) = target { push } }`
(src/statement.rs lines 109-114 and 176-181). -/
def collectNouns : List Target → List Noun
  | [] => []
  | .noun n :: rest => n :: collectNouns rest
  | .property _ :: rest => collectNouns rest

/-- The `Verb::Is` loop of `append_statement` (src/statement.rs lines 44-155),
iterating index `i` over `action_targets` while carrying `start_index`.
`single t s` builds the one-target statement pushed by the `0`/`1` arms and
the trailing property pushes; `multi ns ss` builds the `action_targets[]`
statement of the `k > 1` arm.  Rust's indexing (`action_signs[i]`,
`action_targets[i-1]`) is in bounds whenever `action_signs` is as long as
`action_targets` (the parser's contract); out-of-range indices fall back to
defaults here where Rust would panic. -/
def isSplitGo (single : Target → Bool → Stmt) (multi : List Noun → List Bool → Stmt)
    (allTargets : List Target) (signs : List Bool) :
    List (Nat × Target) → Nat → List Stmt → List Stmt × Nat
  | [], start, out => (out, start)
  | (i, t) :: rest, start, out =>
    if isNounIdentOrAll t then isSplitGo single multi allTargets signs rest start out
    else
      let out' :=
        if i - start = 0 then
          out ++ [single t (signs.getD i false)]
        else if i - start = 1 then
          out ++ [single (allTargets.getD (i - 1) (.noun .all)) (signs.getD (i - 1) false),
                  single t (signs.getD i false)]
        else
          out ++ [multi (collectNouns ((allTargets.drop start).take (i - start)))
                        ((signs.drop start).take (i - start)),
                  single t (signs.getD i false)]
      isSplitGo single multi allTargets signs rest (i + 1) out'

/-- `append_statement` (src/statement.rs lines 27-225).  For `Verb::Is` the
target list is split: runs of `Identifier`/`All` nouns collapse into one
multi-target statement, every other target gets its own single-target
statement (lines 43-201); for any other verb each target is its own statement
(lines 202-224). -/
def appendStatement (out : List Stmt) (pfx : Option PrefixKw)
    (pfxSign : Option Bool) (subject : Noun) (condType : Option Conditional)
    (condSign : Option Bool) (condTargets : List Target) (actionType : Verb)
    (actionTargets : List Target) (actionSigns : List Bool) : List Stmt :=
  let single : Target → Bool → Stmt := fun t s =>
    { pfx := pfx, pfxSign := pfxSign, subject := subject, condType := condType,
      condSign := condSign, condTargets := condTargets, actionType := actionType,
      actionTargets := none, actionTarget := some t, actionSigns := none,
      actionSign := s }
  let multi : List Noun → List Bool → Stmt := fun ns ss =>
    { pfx := pfx, pfxSign := pfxSign, subject := subject, condType := condType,
      condSign := condSign, condTargets := condTargets, actionType := actionType,
      actionTargets := some ns, actionTarget := none, actionSigns := some ss,
      actionSign := false }
  match actionType with
  | .is =>
    let total := actionTargets.length
    let r := isSplitGo single multi actionTargets actionSigns
      (List.range total |>.zip actionTargets) 0 out
    let out' := r.1
    let start := r.2
    if total - start = 1 then
      out' ++ [single (actionTargets.getD start (.noun .all)) (actionSigns.getD start false)]
    else if total - start > 1 then
      out' ++ [multi (collectNouns (actionTargets.drop start)) (actionSigns.drop start)]
    else out'
  | _ =>
    out ++ ((List.range actionTargets.length |>.zip actionTargets).map
      (fun it => single it.2 (actionSigns.getD it.1 false)))

/-! ## Lexer (src/lexer.rs) and token classification (src/token.rs) -/

/-- ASCII lowercasing of a byte, as applied by `to_ascii_lowercase` /
`char::to_lowercase` on the byte values the classification below can
distinguish. -/
def asciiLower (b : Nat) : Nat :=
  if 65 ≤ b ∧ b ≤ 90 then b + 32 else b

/-- `c.is_ascii_alphanumeric()` on a byte value. -/
def isAsciiAlnum (c : Nat) : Bool :=
  (48 ≤ c && c ≤ 57) || (65 ≤ c && c ≤ 90) || (97 ≤ c && c ≤ 122)

/-- The identifier table: `HashMap<usize, String>` with strings as raw byte
lists (identifier words are pure ASCII, see `wordStartByte`). -/
abbrev IdTable := List (Nat × List Nat)

/-- The reserved table contents inserted at the top of `tokenize`
(src/lexer.rs lines 58-61): 0 = "empty", 1 = "level", 2 = "image". -/
def reservedIds : IdTable :=
  [(0, [101, 109, 112, 116, 121]),
   (1, [108, 101, 118, 101, 108]),
   (2, [105, 109, 97, 103, 101])]

/-- Keyword classification, the literal match of `parse` (src/token.rs lines
102-160) over the lowercased word; `none` falls through to the identifier
branch. -/
def keywordToken (w : List Nat) : Option Token :=
  if w = [97, 108, 108] then some (Token.noun Noun.all) -- all
  else if w = [101, 109, 112, 116, 121] then some (Token.noun Noun.empty) -- empty
  else if w = [108, 101, 118, 101, 108] then some (Token.noun Noun.level) -- level
  else if w = [105, 109, 97, 103, 101] then some (Token.noun Noun.image) -- image
  else if w = [101, 97, 116] then some (Token.verb Verb.eat) -- eat
  else if w = [102, 101, 97, 114] then some (Token.verb Verb.fear) -- fear
  else if w = [102, 111, 108, 108, 111, 119] then some (Token.verb Verb.follow) -- follow
  else if w = [104, 97, 115] then some (Token.verb Verb.has) -- has
  else if w = [105, 115] then some (Token.verb Verb.is) -- is
  else if w = [109, 97, 107, 101] then some (Token.verb Verb.make) -- make
  else if w = [109, 105, 109, 105, 99] then some (Token.verb Verb.mimic) -- mimic
  else if w = [112, 108, 97, 121] then some (Token.verb Verb.play) -- play
  else if w = [121, 111, 117] then some (Token.property PropKw.you) -- you
  else if w = [121, 111, 117, 50] then some (Token.property PropKw.you2) -- you2
  else if w = [103, 114, 111, 117, 112] then some (Token.property PropKw.group) -- group
  else if w = [116, 101, 108, 101] then some (Token.property PropKw.tele) -- tele
  else if w = [102, 108, 111, 97, 116] then some (Token.property PropKw.float) -- float
  else if w = [116, 101, 120, 116] then some (Token.property PropKw.text) -- text
  else if w = [119, 111, 114, 100] then some (Token.property PropKw.word) -- word
  else if w = [119, 105, 110] then some (Token.property PropKw.win) -- win
  else if w = [100, 101, 102, 101, 97, 116] then some (Token.property PropKw.defeat) -- defeat
  else if w = [115, 108, 101, 101, 112] then some (Token.property PropKw.sleep) -- sleep
  else if w = [100, 111, 110, 101] then some (Token.property PropKw.done) -- done
  else if w = [109, 111, 118, 101] then some (Token.property PropKw.move) -- move
  else if w = [116, 117, 114, 110] then some (Token.property PropKw.turn) -- turn
  else if w = [102, 97, 108, 108] then some (Token.property PropKw.fall) -- fall
  else if w = [109, 111, 114, 101] then some (Token.property PropKw.more) -- more
  else if w = [114, 105, 103, 104, 116] then some (Token.property PropKw.right) -- right
  else if w = [117, 112] then some (Token.property PropKw.up) -- up
  else if w = [108, 101, 102, 116] then some (Token.property PropKw.left) -- left
  else if w = [100, 111, 119, 110] then some (Token.property PropKw.down) -- down
  else if w = [115, 104, 105, 102, 116] then some (Token.property PropKw.shift) -- shift
  else if w = [115, 105, 110, 107] then some (Token.property PropKw.sink) -- sink
  else if w = [115, 119, 97, 112] then some (Token.property PropKw.swap) -- swap
  else if w = [112, 111, 119, 101, 114] then some (Token.property PropKw.power) -- power
  else if w = [105, 100, 108, 101] then some (Token.pfx PrefixKw.idle) -- idle
  else if w = [108, 111, 110, 101, 108, 121] then some (Token.pfx PrefixKw.lonely) -- lonely
  else if w = [97, 110, 100] then some Token.andTok -- and
  else if w = [110, 111, 116] then some Token.notTok -- not
  else if w = [102, 97, 99, 105, 110, 103] then some (Token.conditional Conditional.facing) -- facing
  else if w = [110, 101, 97, 114] then some (Token.conditional Conditional.near) -- near
  else if w = [111, 110] then some (Token.conditional Conditional.on) -- on
  else if w = [119, 105, 116, 104, 111, 117, 116] then some (Token.conditional Conditional.without) -- without
  else none

/-- The linear search of the identifier branch of `parse` (src/token.rs lines
162-171): the id of the first table entry whose string equals the word. -/
def findIdent : IdTable → List Nat → Option Nat
  | [], _ => none
  | (value, identifier) :: rest, w =>
    if identifier = w then some value else findIdent rest w

/-- `parse` (src/token.rs lines 95-186): empty words are `none`; keywords map
to their token; any other word is an `Identifier`, reusing the existing id if
the (lowercased) word is already in the table and otherwise allocating
`identifiers.len()` as the new id. -/
def parseToken (buffer : List Nat) (identifiers : IdTable) :
    Option (Token × IdTable) :=
  if buffer.length = 0 then none
  else
    let id := buffer.map asciiLower
    match keywordToken id with
    | some t => some (t, identifiers)
    | none =>
      match findIdent identifiers id with
      | some existing => some (.noun (.identifier existing), identifiers)
      | none =>
        some (.noun (.identifier identifiers.length),
              identifiers ++ [(identifiers.length, id)])

/-- The lexer state (src/lexer.rs lines 11-16). -/
inductive LexState : Type where
  | separator | word | maybeComment | comment
deriving DecidableEq

/-- Whether a byte continues a word: the source lowercases the byte's char
and tests `is_ascii_alphanumeric() || c == '_'` (src/lexer.rs lines 74, 89,
112). -/
def wordStartByte (b : Nat) : Bool :=
  isAsciiAlnum (asciiLower b) || asciiLower b == 95

/-- The scanner loop of `tokenize` (src/lexer.rs lines 62-149).  `cur` holds
the bytes of the word being read (the source keeps `word_start` and slices
the buffer; the slice is exactly the bytes accumulated since the word began).
`none` is the fatal `LexerError` on an unparsable word. -/
def tokenizeLoop : List Nat → LexState → List Nat → List Token → IdTable →
    Option (List Token × IdTable)
  | [], state, cur, out, ids =>
    match state with
    | .word =>
      match parseToken cur ids with
      | some (t, ids') => some (out ++ [t], ids')
      | none => none
    | _ => some (out, ids)
  | b :: rest, state, cur, out, ids =>
    let c := asciiLower b
    match state with
    | .separator =>
      if wordStartByte b then tokenizeLoop rest .word [b] out ids
      else if c = 47 then tokenizeLoop rest .maybeComment [] out ids
      else tokenizeLoop rest .separator [] out ids
    | .word =>
      if wordStartByte b then tokenizeLoop rest .word (cur ++ [b]) out ids
      else
        match parseToken cur ids with
        | some (t, ids') => tokenizeLoop rest .separator [] (out ++ [t]) ids'
        | none => none
    | .maybeComment =>
      if wordStartByte b then tokenizeLoop rest .word [b] out ids
      else if c = 47 then tokenizeLoop rest .comment [] out ids
      else tokenizeLoop rest .maybeComment [] out ids
    | .comment =>
      if c = 10 ∨ c = 13 then tokenizeLoop rest .separator [] out ids
      else tokenizeLoop rest .comment [] out ids

/-- `tokenize` (src/lexer.rs lines 34-154) on an in-memory byte buffer:
start in `Separator` with the reserved identifier table. -/
def tokenize (buffer : List Nat) : Option (List Token × IdTable) :=
  tokenizeLoop buffer .separator [] [] reservedIds

/-- The table ids are exactly 0, 1, 2, … in insertion order. -/
def sequentialIds (t : IdTable) : Prop :=
  t.map Prod.fst = List.range t.length

/-! ## Theorems -/

/-- C1: `X IS WORD` on a Group.  Evaluation at the failing input: an empty
group (index 0) and the stdin line `"ab\n"` (bytes 97, 98, 10).  The three
bytes are appended to the data as fresh `You`s, but the index stays 0 — the
claimed advance by the line length (3) does not happen, because `Vec::append`
has already drained `objects` when `objects.len()` is added. -/
theorem c1_word_group_index_not_advanced :
    wordOnGroup 0 [] [97, 98, 10] =
      (0, [Obj.you ⟨97, 0, 0⟩, Obj.you ⟨98, 0, 0⟩, Obj.you ⟨10, 0, 0⟩]) ∧
    (wordOnGroup 0 [] [97, 98, 10]).1 ≠ 0 + 3 := by
  exact ⟨rfl, by decide⟩

/-- Auxiliary, for any input: the Word-on-Group arm appends one fresh `You`
per byte of the line but never changes the index. -/
theorem wordOnGroup_spec (index : Nat) (data : List Obj) (buffer : List Nat) :
    wordOnGroup index data buffer =
      (index, data ++ buffer.map (fun b => Obj.you ⟨b, 0, 0⟩)) := by
  simp [wordOnGroup, vecAppend]

/-- C2 (counterexample): at program start the globals map holds nothing under
reserved id 2 — no sentinel `IMAGE` object is inserted, contradicting the
claim that all three reserved ids hold fixed objects. -/
theorem c2_no_image_sentinel : lookupStore initGlobals 2 = none := rfl

/-- C2 (amended): at program start the globals map holds exactly the `EMPTY`
object under id 0 and the sentinel `LEVEL` object under id 1; reserved id 2
has no binding. -/
theorem c2_initial_globals :
    lookupStore initGlobals 0 = some Obj.empty ∧
    lookupStore initGlobals 1 = some levelSentinel ∧
    lookupStore initGlobals 2 = none := ⟨rfl, rfl, rfl⟩

/-- C3: evaluation of the `IDLE` prefix with sign false (`complete` is `true`
on entry when there is no targeted condition).  For every non-`Image`
subject — a `You`, a `Level` whose argument and parameter counts differ, a
`Group`, `EMPTY`, an `ImageInstance` — the prefix leaves `complete = true`
and the Simple executes, where the claim says it must not: the `else` of the
`Image` check overwrites the `Level` length test and rules out nothing. -/
theorem c3_idle_nonimage_always_runs :
    idleComplete false (Obj.you ⟨0, 0, 0⟩) true = true ∧
    idleComplete false (Obj.level 7 [1] []) true = true ∧
    idleComplete false (Obj.group 0 []) true = true ∧
    idleComplete false Obj.empty true = true ∧
    idleComplete false (Obj.imageInstance 4) true = true := by
  exact ⟨rfl, rfl, rfl, rfl, rfl⟩

/-- C4: `IsValue` between two `You`s.  Without `not`, the source object takes
the target's coordinates and the two compare equal under `You` equality
(which ignores `dir`); with `not`, both coordinates become `255 - b.x` (the
`y` is taken from the target's `x`); `dir` is preserved in both cases. -/
theorem c4_isvalue_you (a b : YouV) :
    (isValueYou false a b).x = b.x ∧
    (isValueYou false a b).y = b.y ∧
    youEq (isValueYou false a b) b = true ∧
    (isValueYou false a b).dir = a.dir ∧
    (isValueYou true a b).x = 255 - b.x ∧
    (isValueYou true a b).y = 255 - b.x ∧
    (isValueYou true a b).dir = a.dir := by
  refine ⟨rfl, rfl, ?_, rfl, rfl, rfl, rfl⟩
  simp [youEq, isValueYou]

/-- C6: splitting of `A IS B AND C AND D` with `B`, `D` properties and `C`
any noun: exactly three single-target statements are appended, in order
`B`, `C`, `D`, all carrying the same prefix, subject and conditions, each
with its own sign. -/
theorem c6_is_split_three (out : List Stmt) (p : Option PrefixKw)
    (ps : Option Bool) (subj : Noun) (ct : Option Conditional)
    (cs : Option Bool) (cts : List Target) (b d : PropKw) (c : Noun)
    (s0 s1 s2 : Bool) :
    appendStatement out p ps subj ct cs cts .is
        [.property b, .noun c, .property d] [s0, s1, s2] =
      out ++
        [⟨p, ps, subj, ct, cs, cts, .is, none, some (.property b), none, s0⟩,
         ⟨p, ps, subj, ct, cs, cts, .is, none, some (.noun c), none, s1⟩,
         ⟨p, ps, subj, ct, cs, cts, .is, none, some (.property d), none, s2⟩] := by
  cases c <;> simp [appendStatement, isSplitGo, isNounIdentOrAll]

/-- C8 (counterexample): a `Group` with empty data does not necessarily reach
the underflowing `data.len() - 1`: with the negated sign and a nonzero index
(reachable by `SHIFT` then `SINK`), `Shift` simply decrements the index. -/
theorem c8_shift_empty_no_underflow : shiftGroup true 1 [] = some 0 := rfl

/-- C8 (amended): on a non-empty group with index within bounds, `Shift`
stays within bounds: normal sign steps forward wrapping to 0 from the last
slot, negated sign steps backward wrapping to the last slot from 0.  (On an
empty group the underflowing subtraction is reached whenever the sign is
normal, or the sign is negated with index 0; a negated `Shift` at a nonzero
index merely decrements.) -/
theorem c8_shift_rotation (not : Bool) (index : Nat) (data : List Obj)
    (h1 : data ≠ []) (h2 : index < data.length) :
    ∃ i, shiftGroup not index data = some i ∧ i < data.length ∧
      (not = false → i = if index = data.length - 1 then 0 else index + 1) ∧
      (not = true → i = if index = 0 then data.length - 1 else index - 1) := by
  have hlen : 1 ≤ data.length := by
    cases data with
    | nil => simp at h1
    | cons a t => simp
  cases not with
  | true =>
    by_cases h0 : index = 0
    · refine ⟨data.length - 1, ?_, by omega, by simp, by simp [h0]⟩
      simp [shiftGroup, h0, checkedSub, hlen]
    · refine ⟨index - 1, ?_, by omega, by simp, by simp [h0]⟩
      simp [shiftGroup, h0]
  | false =>
    by_cases hl : index = data.length - 1
    · refine ⟨0, ?_, by omega, by simp [hl], by simp⟩
      simp [shiftGroup, checkedSub, hlen, hl]
    · refine ⟨index + 1, ?_, by omega, by simp [hl], by simp⟩
      simp [shiftGroup, checkedSub, hlen, hl]

/-- Witness for C8: a one-element group at index 0, negated shift, lands on
index 0 (the last slot). -/
theorem c8_shift_rotation_witness :
    ([Obj.empty] ≠ ([] : List Obj)) ∧ 0 < [Obj.empty].length ∧
    ∃ i, shiftGroup true 0 [Obj.empty] = some i ∧ i < [Obj.empty].length ∧
      (true = false → i = if 0 = [Obj.empty].length - 1 then 0 else 0 + 1) ∧
      (true = true → i = if 0 = 0 then [Obj.empty].length - 1 else 0 - 1) :=
  ⟨List.cons_ne_nil _ _, by decide,
    c8_shift_rotation true 0 [Obj.empty] (List.cons_ne_nil _ _) (by decide)⟩

/-- C10: `Win`/`Defeat` on an id that dereferences to a defined object.  If
the object is not a `You`, both instructions fall through with no exit and no
error, leaving the stores untouched; the process exits (0 for `Win`, 1 for
`Defeat`) exactly when the object is a `You`. -/
theorem c10_win_defeat_you_only (fuel id : Nat) (l g : Store) (obj : Obj)
    (h : findValue fuel id l g = some obj) :
    (isYou obj = false →
      execWin fuel id l g = (.ok, l, g) ∧ execDefeat fuel id l g = (.ok, l, g)) ∧
    (isYou obj = true →
      execWin fuel id l g = (.exitCode 0, l, g) ∧
      execDefeat fuel id l g = (.exitCode 1, l, g)) := by
  unfold execWin execDefeat
  rw [h]
  constructor <;> intro hy <;> simp [hy]

/-- Witness for C10: a `Group` bound directly in the locals is skipped by
both `Win` and `Defeat`. -/
theorem c10_win_defeat_you_only_witness :
    findValue 1 4 [(4, Obj.group 0 [])] [] = some (Obj.group 0 []) ∧
    ((isYou (Obj.group 0 []) = false →
      execWin 1 4 [(4, Obj.group 0 [])] [] = (.ok, [(4, Obj.group 0 [])], []) ∧
      execDefeat 1 4 [(4, Obj.group 0 [])] [] = (.ok, [(4, Obj.group 0 [])], [])) ∧
    (isYou (Obj.group 0 []) = true →
      execWin 1 4 [(4, Obj.group 0 [])] [] = (.exitCode 0, [(4, Obj.group 0 [])], []) ∧
      execDefeat 1 4 [(4, Obj.group 0 [])] [] = (.exitCode 1, [(4, Obj.group 0 [])], []))) :=
  ⟨rfl, c10_win_defeat_you_only 1 4 [(4, Obj.group 0 [])] [] (Obj.group 0 []) rfl⟩

/-- Iterating a function that adds `s` modulo 256 to the `x` coordinate of
any `You` with direction `d` (leaving `y` and `dir` alone). -/
lemma iterate_addx (f : YouV → YouV) (s d : Nat)
    (hf : ∀ u : YouV, u.dir = d → u.x < 256 → f u = ⟨(u.x + s) % 256, u.y, u.dir⟩) :
    ∀ (n : Nat) (u : YouV), u.dir = d → u.x < 256 →
      f^[n] u = ⟨(u.x + s * n) % 256, u.y, u.dir⟩ := by
  intro n
  induction n with
  | zero =>
    intro u hd hx
    simp [Nat.mod_eq_of_lt hx]
  | succ n ih =>
    intro u hd hx
    rw [Function.iterate_succ_apply, hf u hd hx,
      ih ⟨(u.x + s) % 256, u.y, u.dir⟩ hd (Nat.mod_lt _ (by norm_num))]
    simp only [YouV.mk.injEq, and_true]
    rw [Nat.mod_add_mod]
    congr 1
    ring

/-- Iterating a function that adds `s` modulo 256 to the `y` coordinate of
any `You` with direction `d` (leaving `x` and `dir` alone). -/
lemma iterate_addy (f : YouV → YouV) (s d : Nat)
    (hf : ∀ u : YouV, u.dir = d → u.y < 256 → f u = ⟨u.x, (u.y + s) % 256, u.dir⟩) :
    ∀ (n : Nat) (u : YouV), u.dir = d → u.y < 256 →
      f^[n] u = ⟨u.x, (u.y + s * n) % 256, u.dir⟩ := by
  intro n
  induction n with
  | zero =>
    intro u hd hy
    simp [Nat.mod_eq_of_lt hy]
  | succ n ih =>
    intro u hd hy
    rw [Function.iterate_succ_apply, hf u hd hy,
      ih ⟨u.x, (u.y + s) % 256, u.dir⟩ hd (Nat.mod_lt _ (by norm_num))]
    simp only [YouV.mk.injEq, true_and, and_true]
    rw [Nat.mod_add_mod]
    congr 1
    ring

/-- One `Move` step with direction 0: `x` gains `1` (sign clear) or `255`
(sign set) modulo 256. -/
lemma moveYou_dir0 (not : Bool) (u : YouV) (hd : u.dir = 0) (hx : u.x < 256) :
    moveYou not u = ⟨(u.x + if not then 255 else 1) % 256, u.y, u.dir⟩ := by
  rcases u with ⟨x, y, dir⟩
  subst hd
  cases not <;> simp only [moveYou, Bool.false_eq_true, if_false, if_true] <;>
    split_ifs <;> simp_all <;> omega

/-- One `Move` step with direction 2: `x` gains `255` (sign clear) or `1`
(sign set) modulo 256. -/
lemma moveYou_dir2 (not : Bool) (u : YouV) (hd : u.dir = 2) (hx : u.x < 256) :
    moveYou not u = ⟨(u.x + if not then 1 else 255) % 256, u.y, u.dir⟩ := by
  rcases u with ⟨x, y, dir⟩
  subst hd
  cases not <;> simp only [moveYou, Bool.false_eq_true, if_false, if_true] <;>
    split_ifs <;> simp_all <;> omega

/-- One `Move` step with direction 1: `y` gains `1` (sign clear) or `255`
(sign set) modulo 256. -/
lemma moveYou_dir1 (not : Bool) (u : YouV) (hd : u.dir = 1) (hy : u.y < 256) :
    moveYou not u = ⟨u.x, (u.y + if not then 255 else 1) % 256, u.dir⟩ := by
  rcases u with ⟨x, y, dir⟩
  subst hd
  cases not <;> simp only [moveYou, Bool.false_eq_true, if_false, if_true] <;>
    split_ifs <;> simp_all <;> omega

/-- One `Move` step with direction 3: `y` gains `255` (sign clear) or `1`
(sign set) modulo 256. -/
lemma moveYou_dir3 (not : Bool) (u : YouV) (hd : u.dir = 3) (hy : u.y < 256) :
    moveYou not u = ⟨u.x, (u.y + if not then 1 else 255) % 256, u.dir⟩ := by
  rcases u with ⟨x, y, dir⟩
  subst hd
  cases not <;> simp only [moveYou, Bool.false_eq_true, if_false, if_true] <;>
    split_ifs <;> simp_all <;> omega

/-- C7: `You` arithmetic is modular in `u8`: for a `You` with in-range
coordinates and a direction in 0..3, 256 applications of `Move` with a fixed
sign return the object to its original value. -/
theorem c7_move_256_identity (u : YouV) (hx : u.x < 256) (hy : u.y < 256)
    (hd : u.dir < 4) (not : Bool) :
    (moveYou not)^[256] u = u := by
  rcases u with ⟨x, y, dir⟩
  have hx2 : x < 256 := hx
  have hy2 : y < 256 := hy
  interval_cases dir
  · rw [iterate_addx (moveYou not) (if not then 255 else 1) 0
      (fun v h1 h2 => moveYou_dir0 not v h1 h2) 256 ⟨x, y, 0⟩ rfl hx]
    simp only [YouV.mk.injEq, and_true]
    cases not <;> simp <;> omega
  · rw [iterate_addy (moveYou not) (if not then 255 else 1) 1
      (fun v h1 h2 => moveYou_dir1 not v h1 h2) 256 ⟨x, y, 1⟩ rfl hy]
    simp only [YouV.mk.injEq, true_and, and_true]
    cases not <;> simp <;> omega
  · rw [iterate_addx (moveYou not) (if not then 1 else 255) 2
      (fun v h1 h2 => moveYou_dir2 not v h1 h2) 256 ⟨x, y, 2⟩ rfl hx]
    simp only [YouV.mk.injEq, and_true]
    cases not <;> simp <;> omega
  · rw [iterate_addy (moveYou not) (if not then 1 else 255) 3
      (fun v h1 h2 => moveYou_dir3 not v h1 h2) 256 ⟨x, y, 3⟩ rfl hy]
    simp only [YouV.mk.injEq, true_and, and_true]
    cases not <;> simp <;> omega

/-- Witness for C7: the `You` at (5, 7) facing left returns to itself after
256 negated `Move`s. -/
theorem c7_move_256_identity_witness :
    (5 : Nat) < 256 ∧ (7 : Nat) < 256 ∧ (2 : Nat) < 4 ∧
    (moveYou true)^[256] ⟨5, 7, 2⟩ = ⟨5, 7, 2⟩ :=
  ⟨by decide, by decide, by decide,
    c7_move_256_identity ⟨5, 7, 2⟩ (by decide) (by decide) (by decide) true⟩

/-- The `IsSum` target loop agrees with a left fold of the per-target
contributions whenever every identifier target resolves to a `You` (so no
error path is taken). -/
lemma isSumLoop_eq_foldl (fuel : Nat) (l g : Store) :
    ∀ (pairs : List (Noun × Bool)) (acc : Nat × Nat),
      pairs.all (goodTarget fuel l g) = true →
      isSumLoop fuel l g pairs acc =
        some (pairs.foldl (claimedStep fuel l g) acc) := by
  intro pairs
  induction pairs with
  | nil => intro acc _; rfl
  | cons hd tl ih =>
    intro acc h
    rw [List.all_cons, Bool.and_eq_true] at h
    obtain ⟨h1, h2⟩ := h
    rcases hd with ⟨t, n⟩
    rcases acc with ⟨sx, sy⟩
    cases t with
    | identifier id =>
      obtain ⟨v, hfv⟩ : ∃ v, findValue fuel id l g = some (.you v) := by
        simp only [goodTarget] at h1
        cases hfv : findValue fuel id l g with
        | none => rw [hfv] at h1; simp at h1
        | some o =>
          cases o <;> rw [hfv] at h1 <;>
            first
              | exact ⟨_, rfl⟩
              | simp at h1
      cases n <;>
        simp only [isSumLoop, hfv, List.foldl_cons, claimedStep] <;>
        exact ih _ h2
    | all =>
      cases n <;>
        simp only [isSumLoop, List.foldl_cons, claimedStep] <;>
        exact ih _ h2
    | empty => simp [goodTarget] at h1
    | level => simp [goodTarget] at h1
    | image => simp [goodTarget] at h1

/-- C5: `IsSum` folds the zipped target/flag list left-to-right from
`(0, 0)` — identifier targets add (flag clear) or subtract (flag set) the
resolved `You`'s coordinates with wrapping arithmetic, `ALL` targets
contribute the wrapped total of every `You` in locals and globals with the
sign inverted relative to the flag — and assigns the result to the
destination as a `You`, creating it (locally, with `dir = 0`) when it is
absent from both maps. -/
theorem c5_issum_fold (fuel sourceId : Nat) (targets : List Noun)
    (nots : List Bool) (l g : Store)
    (h : ((targets.zip nots).all (goodTarget fuel l g)) = true) :
    execIsSum fuel sourceId targets nots l g =
      some (assignYou sourceId
        (((targets.zip nots).foldl (claimedStep fuel l g) (0, 0)).1)
        (((targets.zip nots).foldl (claimedStep fuel l g) (0, 0)).2) l g) ∧
    (∀ sx sy, lookupStore l sourceId = none → lookupStore g sourceId = none →
      assignYou sourceId sx sy l g =
        (setStore l sourceId (Obj.you ⟨sx, sy, 0⟩), g)) := by
  constructor
  · unfold execIsSum
    rw [isSumLoop_eq_foldl fuel l g _ _ h]
  · intro sx sy hl hg
    simp [assignYou, hl, hg, initObject, containsKey]

/-- Witness for C5: destination 9 absent from both maps; targets are a bound
`You` at (3, 5) added and `ALL` (total (3, 5)) with a set flag, hence added
again by the inverted sign: the result is the `You` (6, 10) created in the
locals. -/
theorem c5_issum_fold_witness :
    (([Noun.identifier 4, Noun.all].zip [false, true]).all
      (goodTarget 1 [(4, Obj.you ⟨3, 5, 0⟩)] []) = true) ∧
    (execIsSum 1 9 [Noun.identifier 4, Noun.all] [false, true]
        [(4, Obj.you ⟨3, 5, 0⟩)] [] =
      some (assignYou 9
        ((([Noun.identifier 4, Noun.all].zip [false, true]).foldl
          (claimedStep 1 [(4, Obj.you ⟨3, 5, 0⟩)] []) (0, 0)).1)
        ((([Noun.identifier 4, Noun.all].zip [false, true]).foldl
          (claimedStep 1 [(4, Obj.you ⟨3, 5, 0⟩)] []) (0, 0)).2)
        [(4, Obj.you ⟨3, 5, 0⟩)] []) ∧
    (∀ sx sy, lookupStore [(4, Obj.you ⟨3, 5, 0⟩)] 9 = none →
      lookupStore [] 9 = none →
      assignYou 9 sx sy [(4, Obj.you ⟨3, 5, 0⟩)] [] =
        (setStore [(4, Obj.you ⟨3, 5, 0⟩)] 9 (Obj.you ⟨sx, sy, 0⟩), []))) :=
  ⟨by decide,
    c5_issum_fold 1 9 [Noun.identifier 4, Noun.all] [false, true]
      [(4, Obj.you ⟨3, 5, 0⟩)] [] (by decide)⟩

/-- `parse` either leaves the identifier table unchanged (keyword, or word
already present) or appends exactly the entry `(table size, lowercased
word)`. -/
lemma parseToken_table (buffer : List Nat) (ids : IdTable) (t : Token)
    (ids2 : IdTable) (h : parseToken buffer ids = some (t, ids2)) :
    ids2 = ids ∨ ids2 = ids ++ [(ids.length, buffer.map asciiLower)] := by
  simp only [parseToken] at h
  by_cases hb : buffer.length = 0
  · rw [if_pos hb] at h
    simp at h
  · rw [if_neg hb] at h
    cases hk : keywordToken (buffer.map asciiLower) with
    | some tk =>
      rw [hk] at h
      simp at h
      exact Or.inl h.2.symm
    | none =>
      rw [hk] at h
      cases hf : findIdent ids (buffer.map asciiLower) with
      | some e =>
        rw [hf] at h
        simp at h
        exact Or.inl h.2.symm
      | none =>
        rw [hf] at h
        simp at h
        exact Or.inr h.2.symm

/-- `parse` preserves sequential numbering of the identifier table and only
ever extends the table. -/
lemma parseToken_seq (buffer : List Nat) (ids : IdTable) (t : Token)
    (ids2 : IdTable) (h : parseToken buffer ids = some (t, ids2))
    (hseq : sequentialIds ids) :
    sequentialIds ids2 ∧ ∃ ext, ids2 = ids ++ ext := by
  rcases parseToken_table buffer ids t ids2 h with h1 | h1 <;> subst h1
  · exact ⟨hseq, [], by simp⟩
  · refine ⟨?_, _, rfl⟩
    unfold sequentialIds at hseq ⊢
    simp [List.range_succ, hseq]

/-- The scanner loop preserves sequential numbering and only extends the
identifier table. -/
lemma tokenizeLoop_table :
    ∀ (bytes : List Nat) (state : LexState) (cur : List Nat)
      (out res : List Token) (ids ids2 : IdTable),
      tokenizeLoop bytes state cur out ids = some (res, ids2) →
      sequentialIds ids →
      sequentialIds ids2 ∧ ∃ ext, ids2 = ids ++ ext := by
  intro bytes
  induction bytes with
  | nil =>
    intro state cur out res ids ids2 h hseq
    cases state with
    | word =>
      simp only [tokenizeLoop] at h
      cases hp : parseToken cur ids with
      | none => rw [hp] at h; simp at h
      | some r =>
        rcases r with ⟨tk, idsp⟩
        rw [hp] at h
        simp at h
        rw [← h.2]
        exact parseToken_seq cur ids tk idsp hp hseq
    | separator =>
      simp only [tokenizeLoop, Option.some_inj, Prod.mk.injEq] at h
      rw [← h.2]
      exact ⟨hseq, [], by simp⟩
    | maybeComment =>
      simp only [tokenizeLoop, Option.some_inj, Prod.mk.injEq] at h
      rw [← h.2]
      exact ⟨hseq, [], by simp⟩
    | comment =>
      simp only [tokenizeLoop, Option.some_inj, Prod.mk.injEq] at h
      rw [← h.2]
      exact ⟨hseq, [], by simp⟩
  | cons b rest ih =>
    intro state cur out res ids ids2 h hseq
    cases state with
    | separator =>
      simp only [tokenizeLoop] at h
      split_ifs at h <;> exact ih _ _ _ _ _ _ h hseq
    | word =>
      simp only [tokenizeLoop] at h
      split_ifs at h
      · exact ih _ _ _ _ _ _ h hseq
      · cases hp : parseToken cur ids with
        | none => rw [hp] at h; simp at h
        | some r =>
          rcases r with ⟨tk, idsp⟩
          rw [hp] at h
          simp only at h
          obtain ⟨hseqp, ext1, hext1⟩ := parseToken_seq cur ids tk idsp hp hseq
          obtain ⟨hseq2, ext2, hext2⟩ := ih _ _ _ _ _ _ h hseqp
          exact ⟨hseq2, ext1 ++ ext2, by rw [hext2, hext1, List.append_assoc]⟩
    | maybeComment =>
      simp only [tokenizeLoop] at h
      split_ifs at h <;> exact ih _ _ _ _ _ _ h hseq
    | comment =>
      simp only [tokenizeLoop] at h
      split_ifs at h <;> exact ih _ _ _ _ _ _ h hseq

/-- C9: lexing is deterministic and numbers identifiers sequentially.  When
`tokenize` succeeds, any byte-for-byte identical buffer produces the same
token list and identifier table; the table extends the reserved prefix
`{0 = empty, 1 = level, 2 = image}`, and its ids are exactly `0, 1, 2, …` in
insertion order (each previously unseen word received the table size current
at its insertion). -/
theorem c9_lexing_deterministic_sequential (buffer : List Nat)
    (out : List Token) (ids : IdTable)
    (h : tokenize buffer = some (out, ids)) :
    (∀ buffer2, buffer2 = buffer → tokenize buffer2 = some (out, ids)) ∧
    sequentialIds ids ∧ ∃ ext, ids = reservedIds ++ ext := by
  have hres : sequentialIds reservedIds := by unfold sequentialIds; decide
  obtain ⟨h1, h2⟩ :=
    tokenizeLoop_table buffer .separator [] [] out reservedIds ids h hres
  exact ⟨fun b2 hb => hb ▸ h, h1, h2⟩

/-- Witness for C9: lexing the bytes of `"baba is you"` yields the
identifier 3 (first fresh id after the reserved prefix), the keyword tokens,
and the table extended by `(3, "baba")`. -/
theorem c9_lexing_deterministic_sequential_witness :
    tokenize [98, 97, 98, 97, 32, 105, 115, 32, 121, 111, 117] =
      some ([Token.noun (Noun.identifier 3), Token.verb Verb.is,
             Token.property PropKw.you],
            reservedIds ++ [(3, [98, 97, 98, 97])]) ∧
    ((∀ buffer2, buffer2 = [98, 97, 98, 97, 32, 105, 115, 32, 121, 111, 117] →
      tokenize buffer2 =
        some ([Token.noun (Noun.identifier 3), Token.verb Verb.is,
               Token.property PropKw.you],
              reservedIds ++ [(3, [98, 97, 98, 97])])) ∧
    sequentialIds (reservedIds ++ [(3, [98, 97, 98, 97])]) ∧
    ∃ ext, reservedIds ++ [(3, [98, 97, 98, 97])] = reservedIds ++ ext) :=
  ⟨by decide,
    c9_lexing_deterministic_sequential
      [98, 97, 98, 97, 32, 105, 115, 32, 121, 111, 117]
      [Token.noun (Noun.identifier 3), Token.verb Verb.is,
       Token.property PropKw.you]
      (reservedIds ++ [(3, [98, 97, 98, 97])]) (by decide)⟩
